import Mathlib

/-!
Shallow embedding of src/bot.py: a webhook-driven Telegram bot that forwards
message text to an LLM completion endpoint, extracts the first fenced code
block from the reply, and relays it back to the chat.

Strings are modelled as List Char.  Effectful Python code is modelled as
functions returning a trace of effects paired with an Except value, where
Except.error stands for a raised Python exception and Except.ok for normal
return.  An environment record says which external operations fail, so a
single executable definition covers every failure scenario.
-/

/-- The backtick character, written via its code point. -/
def btick : Char := Char.ofNat 96

/-- The triple-backtick fence marker used by the extraction regex. -/
def tick3 : List Char := [btick, btick, btick]

/-- ASCII whitespace recognised by Python str.strip. -/
def isPySpace (c : Char) : Bool :=
  c == ' ' || c == '\t' || c == '\n' || c == '\r' || c == '\x0b' || c == '\x0c'

/-- Python str.strip: remove leading and trailing whitespace. -/
def pyStrip (l : List Char) : List Char :=
  ((l.dropWhile isPySpace).reverse.dropWhile isPySpace).reverse

/-- The character class [a-zA-Z0-9_+\-] of the extraction regex (bot.py line 73). -/
def isTagChar (c : Char) : Bool :=
  c.isAlpha || c.isDigit || c == '_' || c == '+' || c == '-'

/-- Whether a list starts with the three-backtick fence marker. -/
def startsWithTick3 (l : List Char) : Bool :=
  match l with
  | a :: b :: c :: _ => a == btick && b == btick && c == btick
  | _ => false

/-- Whether a list contains the three-backtick marker as a substring. -/
def containsTick3 : List Char → Bool
  | [] => false
  | c :: rest => startsWithTick3 (c :: rest) || containsTick3 rest

/-- Lazy interior capture of the regex: everything before the first
three-backtick marker, or failure when no such marker follows. -/
def findClose : List Char → Option (List Char)
  | [] => none
  | c :: rest =>
    if startsWithTick3 (c :: rest) = true then some []
    else (findClose rest).map (fun x => c :: x)

/-- After the opening fence: the regex consumes the maximal run of language-tag
characters and then requires a newline, yielding the remaining text.  Greedy
consumption with backtracking is deterministic here because the newline is not
a tag character. -/
def afterTag (rest : List Char) : Option (List Char) :=
  match rest.dropWhile isTagChar with
  | d :: body => if (d == '\n') = true then some body else none
  | [] => none

/-- One anchored attempt of the regex pattern from bot.py line 73 at the head
of the list: three backticks, an optional language tag, a newline, then the
lazy capture up to the first closing three-backtick marker. -/
def matchFenceAt (l : List Char) : Option (List Char) :=
  match l with
  | a :: b :: c :: rest =>
    if (a == btick && b == btick && c == btick) = true then
      match afterTag rest with
      | some body => findClose body
      | none => none
    else none
  | _ => none

/-- re.search of the fence pattern: try each start position left to right and
return the capture of the leftmost successful match. -/
def searchFence : List Char → Option (List Char)
  | [] => none
  | c :: rest =>
    match matchFenceAt (c :: rest) with
    | some cap => some cap
    | none => searchFence rest

/-- extract_code_block from bot.py lines 68-74: the stripped capture of the
first fenced block, or the whole stripped text when the regex finds no match. -/
def extract_code_block (text : List Char) : List Char :=
  match searchFence text with
  | some cap => pyStrip cap
  | none => pyStrip text

/-- The MarkdownV2 reserved-character class of MDV2_ESCAPE_RE (bot.py line 64),
one disjunct per character of the regex class, in source order. -/
def isReservedMdV2 (c : Char) : Bool :=
  c == '_' || c == '*' || c == '[' || c == ']' || c == '(' || c == ')' ||
  c == '~' || c == btick || c == '>' || c == '#' || c == '+' || c == '-' ||
  c == '=' || c == '|' || c == Char.ofNat 123 || c == Char.ofNat 125 ||
  c == '.' || c == '!'

/-- escape_markdown_v2 from bot.py lines 65-66: every reserved character is
replaced by a backslash followed by that character; other characters pass
through unchanged. -/
def escape_markdown_v2 : List Char → List Char
  | [] => []
  | c :: rest =>
    (if isReservedMdV2 c = true then ['\\', c] else [c]) ++ escape_markdown_v2 rest

/-- The reserved punctuation set as enumerated by the specification:
underscore, asterisk, square brackets, parentheses, tilde, backtick,
greater-than, hash, plus, minus, equals, pipe, curly braces, period,
exclamation mark. -/
def reservedMdV2Chars : List Char :=
  ['_', '*', '[', ']', '(', ')', '~', btick, '>', '#', '+', '-', '=', '|',
   Char.ofNat 123, Char.ofNat 125, '.', '!']

/-- Modelled from the spec side for claim C5: the per-character escaping map
described by the specification, written over the enumerated reserved set. -/
def escapeSpecMdV2 : List Char → List Char
  | [] => []
  | c :: rest =>
    (if c ∈ reservedMdV2Chars then ['\\', c] else [c]) ++ escapeSpecMdV2 rest

example : extract_code_block ("```python\ndef add(a, b):\n    return a + b\n```".data)
    = "def add(a, b):\n    return a + b".data := by decide

example : extract_code_block ("no fences here".data) = "no fences here".data := by decide

example : extract_code_block ("```python\nunterminated".data)
    = "```python\nunterminated".data := by decide

example : escape_markdown_v2 ("a_b".data) = "a\\_b".data := by decide

/-- Exceptions that the modelled external operations can raise. -/
inductive Exn where
  | genExn (msg : List Char)
  | replyTextExn
  | replyDocExn
  | sendMessageExn
  | apologyExn
  | deJsonExn
  | enqueueExn
  deriving DecidableEq

/-- The Python str of an exception; only the generation exception carries a
message that the code interpolates into its strings. -/
def exnText : Exn → List Char
  | Exn.genExn msg => msg
  | _ => []

/-- Observable effects of the modelled functions, in execution order.
Interpolated run-time identifiers (user id, chat id) are abstracted away in
log messages; literal message text is kept. -/
inductive Effect where
  | logInfo (msg : List Char)
  | logWarning (msg : List Char)
  | logError (msg : List Char)
  | genRequest (model sys user : List Char) (maxOutputTokens : Nat)
  | sendMessage (text : List Char)
  | replyText (text : List Char)
  | replyDocument (filename caption : List Char)
  | enqueue
  deriving DecidableEq

/-- Result of running an effectful computation: the trace of effects together
with either a returned value or a raised exception. -/
abbrev M (α : Type) : Type := List Effect × Except Exn α

/-- Sequencing: Python statements one after another; a raised exception skips
the rest. -/
def mBind {α β : Type} (x : M α) (f : α → M β) : M β :=
  match x.2 with
  | Except.ok a => (x.1 ++ (f a).1, (f a).2)
  | Except.error e => (x.1, Except.error e)

/-- A try/except block: on exception the handler runs after the partial trace. -/
def mTry {α : Type} (x : M α) (h : Exn → M α) : M α :=
  match x.2 with
  | Except.ok a => (x.1, Except.ok a)
  | Except.error e => (x.1 ++ (h e).1, (h e).2)

/-- A pure expression. -/
def mPure {α : Type} (a : α) : M α := ([], Except.ok a)

/-- Which external operations fail in a given run, plus the data the
generation service returns; read-only during one request. -/
structure ContentItem where
  ctype : List Char
  ctext : List Char
  deriving DecidableEq

structure Env where
  genRaises : Bool
  genExnMsg : List Char
  outputText : Option (List Char)
  hasOutput : Bool
  outputParts : List (List ContentItem)
  partsRaise : Bool
  replyTextFails : Bool
  replyDocumentFails : Bool
  sendMessageFails : Bool
  apologyFails : Bool
  modelName : List Char

def logInfoOp (msg : List Char) : M Unit := ([Effect.logInfo msg], Except.ok ())

def logWarningOp (msg : List Char) : M Unit := ([Effect.logWarning msg], Except.ok ())

def logErrorOp (msg : List Char) : M Unit := ([Effect.logError msg], Except.ok ())

/-- The fixed system prompt of generate_from_spec (bot.py lines 81-84). -/
def systemPrompt : List Char :=
  ("You are a strict, production-grade code generator. " ++
   "Return only the code in a single fenced block. No explanations or any other text.").data

/-- The user prompt of generate_from_spec (bot.py lines 85-93): the literal
rule lines joined with newlines, embedding the language hint and the spec. -/
def userPrompt (lang_hint spec : List Char) : List Char :=
  "Language: ".data ++ lang_hint ++
  ("\nTask: Generate a complete, production-ready single code file strictly matching the spec below." ++
   "\nRules:" ++
   "\n- Return ONLY code in a single fenced block. No comments, no prose." ++
   "\n- The code must be deterministic, self-contained, and require no external secrets." ++
   "\n- If the spec omits details, pick sensible production defaults." ++
   "\nSpec:\n").data ++ spec

/-- client.responses.create (bot.py lines 98-105): one network call that can
raise; the response data itself is read from the environment afterwards. -/
def responsesCreateOp (env : Env) (model spec lang_hint : List Char) : M Unit :=
  ([Effect.genRequest model systemPrompt (userPrompt lang_hint spec) 4000],
   if env.genRaises = true then Except.error (Exn.genExn env.genExnMsg) else Except.ok ())

/-- Chunk collection of the manual fallback extraction (bot.py lines 110-115):
texts of content items whose type is output_text or text, in order. -/
def chunksOf (parts : List (List ContentItem)) : List Char :=
  parts.foldr
    (fun part acc =>
      part.foldr
        (fun c acc2 =>
          (if (c.ctype == "output_text".data || c.ctype == "text".data) = true
           then c.ctext else []) ++ acc2)
        acc)
    []

/-- text_content as computed in bot.py lines 106-117: the stripped
output_text, falling back to the stripped joined chunks when empty and an
output attribute exists; an exception inside the fallback loop is swallowed
and leaves the empty value. -/
def respTextContent (env : Env) : List Char :=
  let t0 := pyStrip (env.outputText.getD [])
  if (t0.isEmpty && env.hasOutput) = true then
    if env.partsRaise = true then t0 else pyStrip (chunksOf env.outputParts)
  else t0

def genReqLogMsg (model : List Char) : List Char :=
  "OpenAI Responses API request: model=".data ++ model

def genErrLogMsg (e : Exn) : List Char :=
  "OpenAI Responses API error: ".data ++ exnText e

/-- The error string substituted for generated code (bot.py line 121). -/
def genErrorPrefix : List Char :=
  "An error occurred while generating the code: ".data

/-- generate_from_spec from bot.py lines 76-121: log, call the service,
extract the fenced block from the text content; any exception is caught,
logged, and replaced by a human-readable error string. -/
def generate_from_spec (env : Env) (model spec lang_hint : List Char) : M (List Char) :=
  mTry
    (mBind (logInfoOp (genReqLogMsg model)) (fun _ =>
     mBind (responsesCreateOp env model spec lang_hint) (fun _ =>
     mPure
       (let t := respTextContent env
        if t.isEmpty = true then [] else extract_code_block t))))
    (fun e => mBind (logErrorOp (genErrLogMsg e)) (fun _ =>
      mPure (genErrorPrefix ++ exnText e)))

/-- The fenced message built by reply_code (bot.py line 128). -/
def fenceBlock (lang code : List Char) : List Char :=
  tick3 ++ lang ++ '\n' :: (code ++ '\n' :: tick3)

def pyLang : List Char := "python".data

/-- The attachment filename of reply_code (bot.py line 137). -/
def docName (lang : List Char) : List Char :=
  "generated.".data ++ (if lang = pyLang then "py".data else lang)

def docCaption : List Char := "Generated code".data

def mdFailLogMsg (e : Exn) : List Char :=
  "MarkdownV2 send failed: ".data ++ exnText e ++ ". Sending as document...".data

/-- update.message.reply_text with MarkdownV2 parse mode (bot.py lines 130-133). -/
def replyTextOp (env : Env) (text : List Char) : M Unit :=
  ([Effect.replyText text],
   if env.replyTextFails = true then Except.error Exn.replyTextExn else Except.ok ())

/-- update.message.reply_document (bot.py lines 138-141). -/
def replyDocumentOp (env : Env) (fname caption : List Char) : M Unit :=
  ([Effect.replyDocument fname caption],
   if env.replyDocumentFails = true then Except.error Exn.replyDocExn else Except.ok ())

/-- reply_code from bot.py lines 123-141: try the escaped MarkdownV2 send;
on any exception log a warning and send the code as a document.  The document
send is not guarded by a try of its own. -/
def reply_code (env : Env) (code lang : List Char) : M Unit :=
  mTry (replyTextOp env (escape_markdown_v2 (fenceBlock lang code)))
    (fun e =>
      mBind (logWarningOp (mdFailLogMsg e)) (fun _ =>
        replyDocumentOp env (docName lang) docCaption))

/-- The interim acknowledgment text (bot.py line 161). -/
def ackText : List Char := "⏳ Generating code based on your request...".data

/-- context.bot.send_message for the interim acknowledgment. -/
def sendMessageOp (env : Env) (text : List Char) : M Unit :=
  ([Effect.sendMessage text],
   if env.sendMessageFails = true then Except.error Exn.sendMessageExn else Except.ok ())

def handleLogMsg : List Char := "Message from user in chat".data

/-- handle_message from bot.py lines 155-164: log, send the interim
acknowledgment, run the generation caller, then the reply sender. -/
def handle_message (env : Env) (prompt : List Char) : M Unit :=
  mBind (logInfoOp handleLogMsg) (fun _ =>
  mBind (sendMessageOp env ackText) (fun _ =>
  mBind (generate_from_spec env env.modelName prompt pyLang) (fun code =>
  reply_code env code pyLang)))

def apologyText : List Char := "Sorry, an internal error occurred.".data

def ehLogMsg : List Char := "Exception while handling update:".data

/-- context.bot.send_message inside error_handler. -/
def apologySendOp (env : Env) : M Unit :=
  ([Effect.sendMessage apologyText],
   if env.apologyFails = true then Except.error Exn.apologyExn else Except.ok ())

/-- error_handler from bot.py lines 166-175: log the failure, then
best-effort notify the chat, swallowing any exception of that send. -/
def error_handler (env : Env) : M Unit :=
  mBind (logErrorOp ehLogMsg) (fun _ =>
    mTry (apologySendOp env) (fun _ => mPure ()))

/-- The framework dispatch: a handler exception is routed to the registered
error handler (bot.py line 180). -/
def process_update (env : Env) (prompt : List Char) : M Unit :=
  mTry (handle_message env prompt) (fun _ => error_handler env)

/-- Which webhook-path operations fail in a given request. -/
structure WebEnv where
  jsonInvalid : Bool
  loopRunning : Bool
  deJsonFails : Bool
  enqueueFails : Bool

def invalidJsonMsg : List Char := "Invalid JSON at /webhook: ".data

def loopNotRunningMsg : List Char := "PTB loop is not running yet".data

def enqueueFailMsg : List Char := "Failed to enqueue update: ".data

def okBody : List Char := "ok".data

/-- A bare string return from a Flask view is delivered with HTTP status 200. -/
def okResp : Nat × List Char := (200, okBody)

/-- Update.de_json (bot.py line 242), inside the enqueue try block. -/
def deJsonOp (w : WebEnv) : M Unit :=
  ([], if w.deJsonFails = true then Except.error Exn.deJsonExn else Except.ok ())

/-- Hand-off of the update into the PTB queue with a bounded wait
(bot.py lines 243-244). -/
def enqueueOp (w : WebEnv) : M Unit :=
  ([Effect.enqueue], if w.enqueueFails = true then Except.error Exn.enqueueExn else Except.ok ())

/-- webhook from bot.py lines 225-248: invalid JSON is logged and answered
with ok; a missing background loop is logged and answered with ok; failures
while building or enqueueing the update are logged and answered with ok. -/
def webhook (w : WebEnv) : M (Nat × List Char) :=
  if w.jsonInvalid = true then
    mBind (logWarningOp invalidJsonMsg) (fun _ => mPure okResp)
  else if w.loopRunning = false then
    mBind (logErrorOp loopNotRunningMsg) (fun _ => mPure okResp)
  else
    mBind
      (mTry (mBind (deJsonOp w) (fun _ => enqueueOp w))
        (fun _ => logErrorOp enqueueFailMsg))
      (fun _ => mPure okResp)

/-- The newline is not a language-tag character, so greedy consumption of the
tag stops exactly at the newline. -/
theorem dropWhile_tag_append (tag body : List Char)
    (htag : ∀ c ∈ tag, isTagChar c = true) :
    List.dropWhile isTagChar (tag ++ '\n' :: body) = '\n' :: body := by
  induction tag with
  | nil =>
    have h : isTagChar '\n' = false := by decide
    simp [List.dropWhile_cons, h]
  | cons c t ih =>
    have hc : isTagChar c = true := htag c (List.mem_cons_self c t)
    simp [List.dropWhile_cons, hc]
    exact ih (fun x hx => htag x (List.mem_cons_of_mem c hx))

theorem afterTag_append (tag body : List Char)
    (htag : ∀ c ∈ tag, isTagChar c = true) :
    afterTag (tag ++ '\n' :: body) = some body := by
  unfold afterTag
  rw [dropWhile_tag_append tag body htag]
  simp

theorem afterTag_sound (rest body : List Char) (h : afterTag rest = some body) :
    rest.dropWhile isTagChar = '\n' :: body := by
  unfold afterTag at h
  cases hdw : rest.dropWhile isTagChar with
  | nil => rw [hdw] at h; simp at h
  | cons d t =>
    rw [hdw] at h
    have h2 : (if (d == '\n') = true then some t else none) = some body := h
    by_cases hd : (d == '\n') = true
    · rw [if_pos hd] at h2
      have hb : t = body := by simpa using h2
      have hd2 : d = '\n' := by simpa using hd
      rw [hd2, hb]
    · rw [if_neg hd] at h2
      simp at h2

theorem startsWithTick3_iff (l : List Char) :
    startsWithTick3 l = true ↔ ∃ t, l = btick :: btick :: btick :: t := by
  rcases l with _ | ⟨a, _ | ⟨b, _ | ⟨c, t⟩⟩⟩ <;> simp [startsWithTick3, and_assoc]

theorem findClose_sound : ∀ (body cap : List Char), findClose body = some cap →
    ∃ post, body = cap ++ tick3 ++ post := by
  intro body
  induction body with
  | nil => intro cap h; simp [findClose] at h
  | cons c rest ih =>
    intro cap h
    rw [findClose] at h
    by_cases hs : startsWithTick3 (c :: rest) = true
    · rw [if_pos hs] at h
      have hcap : cap = [] := by simpa using h.symm
      obtain ⟨t, ht⟩ := (startsWithTick3_iff _).mp hs
      exact ⟨t, by rw [hcap, ht]; simp [tick3]⟩
    · rw [if_neg hs] at h
      cases hf : findClose rest with
      | none => rw [hf] at h; simp at h
      | some cap2 =>
        rw [hf] at h
        have hc2 : c :: cap2 = cap := by simpa using h
        obtain ⟨post, hp⟩ := ih cap2 hf
        exact ⟨post, by rw [← hc2, hp]; simp⟩

/-- Whether a three-backtick marker starts within the first part of a list is
determined by that part plus two following characters. -/
theorem startsWithTick3_stable (c : Char) (l post : List Char) :
    startsWithTick3 ((c :: l) ++ tick3 ++ post)
      = startsWithTick3 ((c :: l) ++ [btick, btick]) := by
  rcases l with _ | ⟨d, _ | ⟨e, l⟩⟩ <;> simp [startsWithTick3, tick3]

/-- When the interior (followed by two backticks) holds no fence marker, the
lazy capture stops exactly at the appended closing fence. -/
theorem findClose_exact : ∀ (interior post : List Char),
    containsTick3 (interior ++ [btick, btick]) = false →
    findClose (interior ++ tick3 ++ post) = some interior := by
  intro interior
  induction interior with
  | nil =>
    intro post hmin
    have hs : startsWithTick3 (btick :: btick :: btick :: post) = true := by
      simp [startsWithTick3]
    show findClose (btick :: btick :: btick :: post) = some []
    rw [findClose, if_pos hs]
  | cons c rest ih =>
    intro post hmin
    rw [show (c :: rest) ++ [btick, btick] = c :: (rest ++ [btick, btick]) from by simp,
      containsTick3] at hmin
    have hboth := hmin
    rw [Bool.or_eq_false_iff] at hboth
    have h1 : startsWithTick3 ((c :: rest) ++ [btick, btick]) = false := by
      rw [show (c :: rest) ++ [btick, btick] = c :: (rest ++ [btick, btick]) from by simp]
      exact hboth.1
    have h2 : containsTick3 (rest ++ [btick, btick]) = false := hboth.2
    have hs : startsWithTick3 ((c :: rest) ++ tick3 ++ post) = false := by
      rw [startsWithTick3_stable]; exact h1
    have hcons : (c :: rest) ++ tick3 ++ post = c :: (rest ++ tick3 ++ post) := by simp
    rw [hcons] at hs
    show findClose (c :: (rest ++ tick3 ++ post)) = some (c :: rest)
    rw [findClose, if_neg (by simp only [Bool.not_eq_true]; simpa using hs), ih post h2]
    rfl

/-- Any text of the shape interior ++ fence ++ post contains a fence marker. -/
theorem containsTick3_append_tick3 : ∀ (x y : List Char),
    containsTick3 (x ++ tick3 ++ y) = true := by
  intro x y
  induction x with
  | nil =>
    show containsTick3 (btick :: btick :: btick :: y) = true
    rw [containsTick3]
    simp [startsWithTick3]
  | cons c t ih =>
    have hcons : (c :: t) ++ tick3 ++ y = c :: (t ++ tick3 ++ y) := by simp
    rw [hcons, containsTick3, ih]
    simp

theorem containsTick3_cons (c : Char) (rest : List Char) :
    containsTick3 (c :: rest) = (startsWithTick3 (c :: rest) || containsTick3 rest) := rfl

/-- A text containing a fence marker always yields a lazy capture. -/
theorem findClose_complete : ∀ (body : List Char), containsTick3 body = true →
    ∃ cap, findClose body = some cap := by
  intro body
  induction body with
  | nil => intro h; simp [containsTick3] at h
  | cons c t ih =>
    intro h
    rw [findClose]
    by_cases hs : startsWithTick3 (c :: t) = true
    · rw [if_pos hs]; exact ⟨[], rfl⟩
    · rw [if_neg hs]
      rw [containsTick3] at h
      have hsf : startsWithTick3 (c :: t) = false := by
        cases hv : startsWithTick3 (c :: t) with
        | false => rfl
        | true => exact absurd hv hs
      rw [hsf] at h
      have h2 : containsTick3 t = true := by simpa using h
      obtain ⟨cap, hc⟩ := ih h2
      exact ⟨c :: cap, by rw [hc]; rfl⟩

/-- The anchored regex attempt on a well-formed block reduces to the lazy
capture over the block body. -/
theorem matchFenceAt_block (tag body : List Char)
    (htag : ∀ c ∈ tag, isTagChar c = true) :
    matchFenceAt (tick3 ++ tag ++ '\n' :: body) = findClose body := by
  have hd : afterTag (tag ++ '\n' :: body) = some body := afterTag_append tag body htag
  show matchFenceAt (btick :: btick :: btick :: (tag ++ '\n' :: body)) = findClose body
  rw [matchFenceAt]
  rw [if_pos (by simp)]
  rw [hd]

/-- A well-formed fenced block sits at the head of the list: an opening fence,
a language tag, a newline, an interior, and a closing fence. -/
def StartsBlock (l : List Char) : Prop :=
  ∃ tag interior post, (∀ c ∈ tag, isTagChar c = true) ∧
    l = tick3 ++ tag ++ '\n' :: (interior ++ tick3 ++ post)

/-- The text contains a complete well-formed fenced block somewhere. -/
def HasFence (text : List Char) : Prop :=
  ∃ pre rest, text = pre ++ rest ∧ StartsBlock rest

/-- A successful anchored attempt exhibits a well-formed block whose minimal
interior is the capture. -/
theorem matchFenceAt_sound (l cap : List Char) (h : matchFenceAt l = some cap) :
    ∃ tag post, (∀ c ∈ tag, isTagChar c = true) ∧
      l = tick3 ++ tag ++ '\n' :: (cap ++ tick3 ++ post) := by
  rcases l with _ | ⟨a, _ | ⟨b, _ | ⟨c, rest⟩⟩⟩
  · simp [matchFenceAt] at h
  · simp [matchFenceAt] at h
  · simp [matchFenceAt] at h
  · rw [matchFenceAt] at h
    by_cases hb : (a == btick && b == btick && c == btick) = true
    · rw [if_pos hb] at h
      cases hA : afterTag rest with
      | none => rw [hA] at h; simp at h
      | some body =>
        rw [hA] at h
        obtain ⟨post, hpost⟩ := findClose_sound body cap h
        have hdw := afterTag_sound rest body hA
        have htw : rest = rest.takeWhile isTagChar ++ '\n' :: body := by
          conv_lhs => rw [← List.takeWhile_append_dropWhile isTagChar rest]
          rw [hdw]
        obtain ⟨ha1, ha2, ha3⟩ : a = btick ∧ b = btick ∧ c = btick := by
          simpa [and_assoc] using hb
        refine ⟨rest.takeWhile isTagChar, post, ?_, ?_⟩
        · intro x hx; exact List.mem_takeWhile_imp hx
        · rw [ha1, ha2, ha3]
          conv_lhs => rw [htw, hpost]
          simp [tick3]
    · rw [if_neg hb] at h
      simp at h

theorem matchFenceAt_StartsBlock (l cap : List Char) (h : matchFenceAt l = some cap) :
    StartsBlock l := by
  obtain ⟨tag, post, htag, hl⟩ := matchFenceAt_sound l cap h
  exact ⟨tag, cap, post, htag, hl⟩

/-- On a well-formed block the anchored attempt succeeds. -/
theorem StartsBlock_isSome (l : List Char) (h : StartsBlock l) :
    (matchFenceAt l).isSome = true := by
  obtain ⟨tag, interior, post, htag, hl⟩ := h
  rw [hl, matchFenceAt_block tag (interior ++ tick3 ++ post) htag]
  obtain ⟨cap, hc⟩ := findClose_complete (interior ++ tick3 ++ post)
    (containsTick3_append_tick3 interior post)
  rw [hc]
  rfl

/-- The left-to-right search skips positions where the anchored attempt fails. -/
theorem searchFence_append (pre rest : List Char)
    (h : ∀ q, q < pre.length → matchFenceAt ((pre ++ rest).drop q) = none) :
    searchFence (pre ++ rest) = searchFence rest := by
  induction pre with
  | nil => rfl
  | cons c p ih =>
    have h0 : matchFenceAt (c :: (p ++ rest)) = none := by
      have := h 0 (by simp)
      simpa using this
    rw [List.cons_append, searchFence, h0]
    exact ih (fun q hq => by
      have := h (q + 1) (by simpa using Nat.succ_lt_succ hq)
      simpa using this)

/-- A successful anchored attempt at the head makes the search succeed there. -/
theorem searchFence_head (c : Char) (t cap : List Char)
    (h : matchFenceAt (c :: t) = some cap) : searchFence (c :: t) = some cap := by
  rw [searchFence, h]

/-- A successful search decomposes the text at the matching position. -/
theorem searchFence_sound : ∀ (text cap : List Char), searchFence text = some cap →
    ∃ pre rest, text = pre ++ rest ∧ matchFenceAt rest = some cap := by
  intro text
  induction text with
  | nil => intro cap h; simp [searchFence] at h
  | cons c t ih =>
    intro cap h
    rw [searchFence] at h
    cases hm : matchFenceAt (c :: t) with
    | some cap2 =>
      rw [hm] at h
      have hc : cap2 = cap := by simpa using h
      exact ⟨[], c :: t, rfl, by rw [hm, hc]⟩
    | none =>
      rw [hm] at h
      obtain ⟨pre, rest, hpre, hmr⟩ := ih cap h
      exact ⟨c :: pre, rest, by rw [hpre]; rfl, hmr⟩

/-- A successful anchored attempt anywhere makes the search succeed. -/
theorem searchFence_isSome (pre rest cap : List Char)
    (h : matchFenceAt rest = some cap) :
    (searchFence (pre ++ rest)).isSome = true := by
  induction pre with
  | nil =>
    rcases rest with _ | ⟨c, t⟩
    · simp [matchFenceAt] at h
    · rw [List.nil_append, searchFence_head c t cap h]
      rfl
  | cons c p ih =>
    rw [List.cons_append, searchFence]
    cases hm : matchFenceAt (c :: (p ++ rest)) with
    | some cap2 => rfl
    | none => exact ih

/-- A text containing a complete fenced block makes the search succeed. -/
theorem hasFence_isSome (text : List Char) (h : HasFence text) :
    (searchFence text).isSome = true := by
  obtain ⟨pre, rest, htext, hsb⟩ := h
  have h2 := StartsBlock_isSome rest hsb
  cases hm : matchFenceAt rest with
  | none => rw [hm] at h2; simp at h2
  | some cap => rw [htext]; exact searchFence_isSome pre rest cap hm

/-- A successful search exhibits a complete fenced block in the text. -/
theorem searchFence_hasFence (text cap : List Char) (h : searchFence text = some cap) :
    HasFence text := by
  obtain ⟨pre, rest, ht, hm⟩ := searchFence_sound text cap h
  exact ⟨pre, rest, ht, matchFenceAt_StartsBlock rest cap hm⟩

/-- C1: for every input text containing a well-formed fenced block (an opening
triple-backtick marker, an optional language tag, a line break, an interior,
and a closing marker), extract_code_block returns exactly the interior of the
first such block with leading and trailing whitespace trimmed, regardless of
the text before the opening fence or after the closing fence.  The block being
first is expressed by: no well-formed block starts at any earlier position,
and the interior is minimal (no fence marker starts inside it or overlapping
its trailing characters). -/
theorem c1_extract_first_block (pre tag interior post : List Char)
    (htag : ∀ c ∈ tag, isTagChar c = true)
    (hfirst : ∀ q, q < pre.length →
      ¬ StartsBlock ((pre ++ (tick3 ++ tag ++ '\n' :: (interior ++ tick3 ++ post))).drop q))
    (hmin : containsTick3 (interior ++ [btick, btick]) = false) :
    extract_code_block (pre ++ (tick3 ++ tag ++ '\n' :: (interior ++ tick3 ++ post)))
      = pyStrip interior := by
  have hm : matchFenceAt (tick3 ++ tag ++ '\n' :: (interior ++ tick3 ++ post))
      = some interior := by
    rw [matchFenceAt_block tag _ htag]
    exact findClose_exact interior post hmin
  have hnone : ∀ q, q < pre.length →
      matchFenceAt
        ((pre ++ (tick3 ++ tag ++ '\n' :: (interior ++ tick3 ++ post))).drop q) = none := by
    intro q hq
    cases hmq : matchFenceAt
        ((pre ++ (tick3 ++ tag ++ '\n' :: (interior ++ tick3 ++ post))).drop q) with
    | none => rfl
    | some cap => exact absurd (matchFenceAt_StartsBlock _ cap hmq) (hfirst q hq)
  have hsf : searchFence (pre ++ (tick3 ++ tag ++ '\n' :: (interior ++ tick3 ++ post)))
      = some interior := by
    rw [searchFence_append pre _ hnone]
    show searchFence
      (btick :: (btick :: btick :: (tag ++ '\n' :: (interior ++ tick3 ++ post))))
      = some interior
    exact searchFence_head _ _ _ hm
  rw [extract_code_block, hsf]

/-- Witness for C1 at the concrete example of the specification. -/
theorem c1_extract_first_block_witness :
    extract_code_block ("```python\ndef add(a, b):\n    return a + b\n```".data)
      = "def add(a, b):\n    return a + b".data := by
  have h := c1_extract_first_block [] ("python".data)
    ("def add(a, b):\n    return a + b\n".data) [] (by decide)
    (fun q hq => absurd hq (Nat.not_lt_zero q)) (by decide)
  have e1 : ([] : List Char) ++
      (tick3 ++ "python".data ++
        '\n' :: ("def add(a, b):\n    return a + b\n".data ++ tick3 ++ []))
      = "```python\ndef add(a, b):\n    return a + b\n```".data := by decide
  rw [e1] at h
  rw [h]
  decide

/-- C4: for every input text containing no complete fenced region, whether it
has no fence markers at all or an unterminated opening fence,
extract_code_block returns the entire original input trimmed of leading and
trailing whitespace, never a partial capture. -/
theorem c4_extract_no_fence (text : List Char) (h : ¬ HasFence text) :
    extract_code_block text = pyStrip text := by
  cases hs : searchFence text with
  | none => rw [extract_code_block, hs]
  | some cap => exact absurd (searchFence_hasFence text cap hs) h

/-- Witness for C4 at an input with an opening fence and no closing marker. -/
theorem c4_extract_no_fence_witness :
    extract_code_block ("```python\ndef add(a, b): pass".data)
      = pyStrip ("```python\ndef add(a, b): pass".data) :=
  c4_extract_no_fence _ (fun h => absurd (hasFence_isSome _ h) (by decide))

/-- The regex character class and the enumerated reserved set of the
specification agree character by character. -/
theorem isReservedMdV2_iff (c : Char) :
    isReservedMdV2 c = true ↔ c ∈ reservedMdV2Chars := by
  simp [isReservedMdV2, reservedMdV2Chars, or_assoc]

/-- Every backtick in an escaped text is immediately preceded by a backslash. -/
theorem escape_backtick_guarded : ∀ (l : List Char) (i : Nat),
    (escape_markdown_v2 l)[i]? = some btick →
    ∃ j, i = j + 1 ∧ (escape_markdown_v2 l)[j]? = some '\\' := by
  intro l
  induction l with
  | nil => intro i h; simp [escape_markdown_v2] at h
  | cons c rest ih =>
    intro i h
    by_cases hc : isReservedMdV2 c = true
    · have hsh : escape_markdown_v2 (c :: rest)
          = '\\' :: c :: escape_markdown_v2 rest := by
        rw [escape_markdown_v2, if_pos hc]
        rfl
      rw [hsh] at h
      rcases i with _ | _ | k
      · rw [List.getElem?_cons_zero] at h
        exact absurd (by simpa using h) (by decide)
      · exact ⟨0, rfl, by rw [hsh]; simp⟩
      · rw [List.getElem?_cons_succ, List.getElem?_cons_succ] at h
        obtain ⟨j, hj1, hj2⟩ := ih k h
        exact ⟨j + 2, by omega, by rw [hsh, List.getElem?_cons_succ, List.getElem?_cons_succ]; exact hj2⟩
    · have hsh : escape_markdown_v2 (c :: rest) = c :: escape_markdown_v2 rest := by
        rw [escape_markdown_v2, if_neg hc]
        rfl
      rw [hsh] at h
      rcases i with _ | k
      · rw [List.getElem?_cons_zero] at h
        have hcb : c = btick := by simpa using h
        rw [hcb] at hc
        exact absurd (by decide : isReservedMdV2 btick = true) hc
      · rw [List.getElem?_cons_succ] at h
        obtain ⟨j, hj1, hj2⟩ := ih k h
        exact ⟨j + 1, by omega, by rw [hsh, List.getElem?_cons_succ]; exact hj2⟩

/-- The first effect of reply_code is always the MarkdownV2 send of the
escaped fenced block. -/
theorem reply_code_head (env : Env) (code lang : List Char) :
    (reply_code env code lang).1.head?
      = some (Effect.replyText (escape_markdown_v2 (fenceBlock lang code))) := by
  cases hf : env.replyTextFails <;>
    simp [reply_code, mTry, mBind, replyTextOp, logWarningOp, replyDocumentOp, hf]

/-- C5: escape_markdown_v2 prefixes every occurrence of every character of the
reserved punctuation set enumerated by the specification with a backslash and
leaves all other characters unchanged, and the primary rich-text send of
reply_code transmits exactly the text so escaped. -/
theorem c5_escape_reserved_set (text : List Char) (env : Env) (code lang : List Char) :
    escape_markdown_v2 text = escapeSpecMdV2 text ∧
    (reply_code env code lang).1.head?
      = some (Effect.replyText (escape_markdown_v2 (fenceBlock lang code))) := by
  constructor
  · induction text with
    | nil => rfl
    | cons c rest ih =>
      rw [escape_markdown_v2, escapeSpecMdV2, ih]
      by_cases hc : isReservedMdV2 c = true
      · rw [if_pos hc, if_pos ((isReservedMdV2_iff c).mp hc)]
      · rw [if_neg hc, if_neg (fun hm => hc ((isReservedMdV2_iff c).mpr hm))]
  · exact reply_code_head env code lang

/-- C9: the text transmitted by the primary rich-text send is the escape of
the entire fenced block including its own fence markers, and every backtick
of that transmitted message is immediately preceded by a backslash. -/
theorem c9_fences_escaped (env : Env) (code lang : List Char) (i : Nat)
    (h : (escape_markdown_v2 (fenceBlock lang code))[i]? = some btick) :
    (reply_code env code lang).1.head?
      = some (Effect.replyText (escape_markdown_v2 (fenceBlock lang code))) ∧
    ∃ j, i = j + 1 ∧ (escape_markdown_v2 (fenceBlock lang code))[j]? = some '\\' :=
  ⟨reply_code_head env code lang, escape_backtick_guarded (fenceBlock lang code) i h⟩

/-- An environment in which every external operation succeeds. -/
def env0 : Env :=
  ⟨false, [], none, false, [], false, false, false, false, false, "gpt-5".data⟩

/-- Witness for C9 at the first fence backtick of a concrete block. -/
theorem c9_fences_escaped_witness :
    (reply_code env0 ['x'] pyLang).1.head?
      = some (Effect.replyText (escape_markdown_v2 (fenceBlock pyLang ['x']))) ∧
    ∃ j, 1 = j + 1 ∧ (escape_markdown_v2 (fenceBlock pyLang ['x']))[j]? = some '\\' :=
  c9_fences_escaped env0 ['x'] pyLang 1 (by decide)

/-- The generation caller terminates with a returned string in every
environment: the catch-all handler converts any raise into a value. -/
theorem generate_ok (env : Env) (model spec lang_hint : List Char) :
    ∃ s, (generate_from_spec env model spec lang_hint).2 = Except.ok s := by
  cases hg : env.genRaises <;>
    simp [generate_from_spec, mTry, mBind, mPure, logInfoOp, logErrorOp,
      responsesCreateOp, hg]

/-- C2: for every exception raised during the generation call,
generate_from_spec does not propagate the exception: it returns the
human-readable error string naming the failure, and for every environment the
caller-facing contract never raises. -/
theorem c2_generate_never_raises (env : Env) (model spec lang_hint : List Char)
    (h : env.genRaises = true) :
    (generate_from_spec env model spec lang_hint).2
      = Except.ok (genErrorPrefix ++ env.genExnMsg) ∧
    ∀ env2 : Env, ∃ s, (generate_from_spec env2 model spec lang_hint).2 = Except.ok s := by
  constructor
  · simp [generate_from_spec, mTry, mBind, mPure, logInfoOp, logErrorOp,
      responsesCreateOp, h, exnText]
  · intro env2
    exact generate_ok env2 model spec lang_hint

/-- An environment where only the generation call raises. -/
def envGenFail : Env :=
  ⟨true, "boom".data, none, false, [], false, false, false, false, false, "gpt-5".data⟩

/-- Witness for C2 at a concrete failing generation call. -/
theorem c2_generate_never_raises_witness :
    (generate_from_spec envGenFail ("gpt-5".data) ("spec".data) pyLang).2
      = Except.ok (genErrorPrefix ++ envGenFail.genExnMsg) ∧
    ∀ env2 : Env, ∃ s,
      (generate_from_spec env2 ("gpt-5".data) ("spec".data) pyLang).2 = Except.ok s :=
  c2_generate_never_raises envGenFail ("gpt-5".data) ("spec".data) pyLang rfl

/-- Under a failing primary send, the reply trace is: the MarkdownV2 attempt,
the warning log, then the document upload. -/
theorem reply_code_trace_fail (env : Env) (code lang : List Char)
    (h : env.replyTextFails = true) :
    (reply_code env code lang).1
      = [Effect.replyText (escape_markdown_v2 (fenceBlock lang code)),
         Effect.logWarning (mdFailLogMsg Exn.replyTextExn),
         Effect.replyDocument (docName lang) docCaption] := by
  cases hd : env.replyDocumentFails <;>
    simp [reply_code, mTry, mBind, replyTextOp, logWarningOp, replyDocumentOp, h, hd]

/-- C3: if the primary MarkdownV2 send raises, reply_code falls back to
exactly one document upload, with no plain-text retry, and the primary
exception is never the one propagated out of reply_code. -/
theorem c3_reply_fallback_document (env : Env) (code lang : List Char)
    (h : env.replyTextFails = true) :
    (reply_code env code lang).1
      = [Effect.replyText (escape_markdown_v2 (fenceBlock lang code)),
         Effect.logWarning (mdFailLogMsg Exn.replyTextExn),
         Effect.replyDocument (docName lang) docCaption] ∧
    (reply_code env code lang).2 ≠ Except.error Exn.replyTextExn := by
  refine ⟨reply_code_trace_fail env code lang h, ?_⟩
  cases hd : env.replyDocumentFails <;>
    simp [reply_code, mTry, mBind, replyTextOp, logWarningOp, replyDocumentOp, h, hd]

/-- An environment where only the primary MarkdownV2 send fails. -/
def envReplyFail : Env :=
  ⟨false, [], none, false, [], false, true, false, false, false, "gpt-5".data⟩

/-- Witness for C3 at a concrete failing MarkdownV2 send. -/
theorem c3_reply_fallback_document_witness :
    (reply_code envReplyFail ['x'] pyLang).1
      = [Effect.replyText (escape_markdown_v2 (fenceBlock pyLang ['x'])),
         Effect.logWarning (mdFailLogMsg Exn.replyTextExn),
         Effect.replyDocument (docName pyLang) docCaption] ∧
    (reply_code envReplyFail ['x'] pyLang).2 ≠ Except.error Exn.replyTextExn :=
  c3_reply_fallback_document envReplyFail ['x'] pyLang rfl

/-- C6: every webhook request, including invalid JSON, a missing background
loop, and a failed enqueue, is answered with HTTP 200 and body ok, and the
handler never lets an exception escape. -/
theorem c6_webhook_always_ok (w : WebEnv) :
    (webhook w).2 = Except.ok (200, okBody) := by
  rcases w with ⟨j, lr, dj, en⟩
  cases j <;> cases lr <;> cases dj <;> cases en <;>
    simp [webhook, mTry, mBind, mPure, logWarningOp, logErrorOp, deJsonOp,
      enqueueOp, okResp]

/-- C8: on a non-command message with a deliverable acknowledgment, the
handler trace is the log, then the interim acknowledgment, then all
generation effects, then all reply effects: the acknowledgment is sent before
the generation call begins and the reply sender runs on the generation
result afterwards. -/
theorem c8_ack_before_generation (env : Env) (prompt : List Char)
    (h : env.sendMessageFails = false) :
    ∃ code, (generate_from_spec env env.modelName prompt pyLang).2 = Except.ok code ∧
      (handle_message env prompt).1
        = Effect.logInfo handleLogMsg :: Effect.sendMessage ackText ::
          ((generate_from_spec env env.modelName prompt pyLang).1
            ++ (reply_code env code pyLang).1) := by
  obtain ⟨code, hc⟩ := generate_ok env env.modelName prompt pyLang
  refine ⟨code, hc, ?_⟩
  simp [handle_message, mBind, logInfoOp, sendMessageOp, h, hc]

/-- Witness for C8 at a concrete message in the all-success environment. -/
theorem c8_ack_before_generation_witness :
    ∃ code, (generate_from_spec env0 env0.modelName ("hi".data) pyLang).2
        = Except.ok code ∧
      (handle_message env0 ("hi".data)).1
        = Effect.logInfo handleLogMsg :: Effect.sendMessage ackText ::
          ((generate_from_spec env0 env0.modelName ("hi".data) pyLang).1
            ++ (reply_code env0 code pyLang).1) :=
  c8_ack_before_generation env0 ("hi".data) rfl

/-- C10: when the generation call succeeds and both the textual output and
the recoverable output parts are empty or whitespace-only, generate_from_spec
returns the empty string, not an error message and not a fallback. -/
theorem c10_empty_output_empty_string (env : Env) (model spec lang_hint : List Char)
    (h1 : env.genRaises = false)
    (h2 : pyStrip (env.outputText.getD []) = [])
    (h3 : pyStrip (chunksOf env.outputParts) = []) :
    (generate_from_spec env model spec lang_hint).2 = Except.ok [] := by
  have ht : respTextContent env = [] := by
    cases ho : env.hasOutput <;> cases hp : env.partsRaise <;>
      simp [respTextContent, h2, h3, ho, hp]
  simp [generate_from_spec, mTry, mBind, mPure, logInfoOp, responsesCreateOp, h1, ht]

/-- An environment with a successful call whose output text is whitespace-only
and whose output parts carry only whitespace text. -/
def envEmptyOut : Env :=
  ⟨false, [], some "   ".data, true, [[⟨"text".data, "  ".data⟩]], false,
   false, false, false, false, "gpt-5".data⟩

/-- Witness for C10 at a concrete whitespace-only response. -/
theorem c10_empty_output_empty_string_witness :
    (generate_from_spec envEmptyOut ("gpt-5".data) ("spec".data) pyLang).2
      = Except.ok [] :=
  c10_empty_output_empty_string envEmptyOut ("gpt-5".data) ("spec".data) pyLang
    rfl (by decide) (by decide)

/-- An environment where the MarkdownV2 send and the document upload both fail. -/
def envBothFail : Env :=
  ⟨false, [], none, false, [], false, true, true, false, false, "gpt-5".data⟩

/-- Counterexample to C7: when the file-attachment fallback itself raises,
the exception does propagate out of reply_code (the call does not return
normally), because the document send is not guarded inside reply_code. -/
theorem c7_counterexample :
    (reply_code envBothFail ['x'] pyLang).2 = Except.error Exn.replyDocExn ∧
    (reply_code envBothFail ['x'] pyLang).2 ≠ Except.ok () := by
  constructor
  · rfl
  · intro h
    simp [reply_code, mTry, mBind, replyTextOp, logWarningOp, replyDocumentOp,
      envBothFail] at h

/-- Effects that are document uploads. -/
def isReplyDoc : Effect → Bool
  | Effect.replyDocument _ _ => true
  | _ => false

/-- Number of document-upload attempts in a trace. -/
def countReplyDoc (l : List Effect) : Nat := (l.filter isReplyDoc).length

/-- C7 amended: a failure of the file-attachment fallback is not caught inside
reply_code; the exception propagates to the framework error handler, which
logs it and sends the single internal-error notice, after which the dispatch
completes normally with exactly one upload attempt and no retry. -/
theorem c7_amended_fallback_escalates (env : Env) (prompt : List Char)
    (h1 : env.replyTextFails = true) (h2 : env.replyDocumentFails = true)
    (h3 : env.sendMessageFails = false) :
    (process_update env prompt).2 = Except.ok () ∧
    (process_update env prompt).1
      = (handle_message env prompt).1 ++ (error_handler env).1 ∧
    (error_handler env).1.head? = some (Effect.logError ehLogMsg) ∧
    countReplyDoc (process_update env prompt).1 = 1 := by
  refine ⟨?_, ?_, ?_, ?_⟩ <;>
    cases hg : env.genRaises <;> cases ha : env.apologyFails <;>
      simp [process_update, handle_message, error_handler, generate_from_spec,
        reply_code, mTry, mBind, mPure, logInfoOp, logErrorOp, logWarningOp,
        sendMessageOp, apologySendOp, responsesCreateOp, replyTextOp,
        replyDocumentOp, h1, h2, h3, hg, ha, countReplyDoc, isReplyDoc,
        List.filter_cons, List.filter_append]

/-- Witness for the amended C7 at a concrete double failure. -/
theorem c7_amended_fallback_escalates_witness :
    (process_update envBothFail ("hi".data)).2 = Except.ok () ∧
    (process_update envBothFail ("hi".data)).1
      = (handle_message envBothFail ("hi".data)).1 ++ (error_handler envBothFail).1 ∧
    (error_handler envBothFail).1.head? = some (Effect.logError ehLogMsg) ∧
    countReplyDoc (process_update envBothFail ("hi".data)).1 = 1 :=
  c7_amended_fallback_escalates envBothFail ("hi".data) rfl rfl rfl
